import Mathlib

/-
Verification development for the `neo` terminal agent (Go).

The Go sources are shallowly embedded below:
  * `src/unnamed/part_001` — file mutation primitives and the directory
    ingestion engine (`normalizePath`, `readLocalFile`,
    `createOrOverwriteFile`, `applyDiffEdit`, `isBinaryFile`,
    `addDirectoryToConversationHelper`);
  * `src/neo-go/ai_interaction.go` — conversation-history trimming, the
    streaming tool-call aggregator and the tool orchestration loop
    (`trimConversationHistory`, `StreamAIResponse`);
  * `src/unnamed/part_000` — the incremental text formatter
    (`MatrixTextStreamFormatter.formatAndPrintLine`).

Modelling conventions:
  * Go strings are modelled as Lean `String`/`List Char`; byte-level
    operations (`s[:2]`, sizes) are modelled at character level, which
    coincides with the source for ASCII data (all concrete inputs used
    below are ASCII).
  * The OS filesystem seen by the file primitives is an association list
    from path to content (`GoFS`); `os.ReadFile`/`os.WriteFile` become
    lookup/insert, `os.MkdirAll` always succeeds.
  * Functions returning `(T, error)` in Go become `Except String T`;
    the embedded error strings follow the `fmt.Errorf` format strings of
    the source (with `%v`/`%w` payloads of OS errors abbreviated to fixed
    reason texts, since the OS error text is outside the program).
-/

namespace Neo

/-! ### Character-list helpers modelling Go's `strings` package -/

/-- Model of `strings.HasPrefix` at the character-list level:
`isPre pat l` is true when `pat` is an initial segment of `l`. -/
def isPre : List Char → List Char → Bool
  | [], _ => true
  | _ :: _, [] => false
  | a :: l₁, b :: l₂ => a = b && isPre l₁ l₂

/-- Model of `strings.HasPrefix` on strings. -/
def goStartsWith (s pre : String) : Bool :=
  isPre pre.data s.data

/-- Model of `strings.Contains` (substring test) at character-list level. -/
def hasSub : List Char → List Char → Bool
  | [], pat => isPre pat []
  | c :: cs, pat => isPre pat (c :: cs) || hasSub cs pat

/-- Model of `strings.Contains` on strings. -/
def goContains (s pat : String) : Bool :=
  hasSub s.data pat.data

/-- Number of occurrences of `pat` as an exact substring of `s`
(one per starting position, overlapping occurrences all counted).
This definition follows the spec's words "occurrences of
`originalSnippet` as an exact substring"; it is the spec-side
counterpart of `stringsCount` below. -/
def substrOccCount : List Char → List Char → Nat
  | [], pat => if isPre pat [] then 1 else 0
  | c :: cs, pat => (if isPre pat (c :: cs) then 1 else 0) + substrOccCount cs pat

/-- Spec-side substring-occurrence count on strings. -/
def specSubstrOcc (s pat : String) : Nat :=
  substrOccCount s.data pat.data

/-- Fuel-indexed kernel of `strings.Count` for a non-empty pattern:
counts non-overlapping occurrences left to right, skipping past each
match.  `fuel` bounds the recursion; it is called with `fuel = s.length`,
which suffices because every step consumes at least one character. -/
def countNO (pat : List Char) : Nat → List Char → Nat
  | _, [] => 0
  | 0, _ :: _ => 0
  | fuel + 1, c :: cs =>
    if isPre pat (c :: cs) then 1 + countNO pat fuel ((c :: cs).drop pat.length)
    else countNO pat fuel cs

/-- Model of Go `strings.Count(s, pat)`: for an empty pattern it returns
`RuneCount(s) + 1`; otherwise the number of non-overlapping instances of
`pat` in `s`. -/
def stringsCount (s pat : String) : Nat :=
  if pat.data.isEmpty then s.length + 1
  else countNO pat.data s.data.length s.data

/-- Kernel of `strings.Replace(s, pat, rep, 1)` for a non-empty pattern:
replaces the leftmost occurrence of `pat` by `rep`. -/
def replaceFirstAux (pat rep : List Char) : List Char → List Char
  | [] => []
  | c :: cs =>
    if isPre pat (c :: cs) then rep ++ (c :: cs).drop pat.length
    else c :: replaceFirstAux pat rep cs

/-- Model of Go `strings.Replace(s, pat, rep, 1)`.  With an empty
pattern Go inserts `rep` before the first rune, i.e. returns
`rep ++ s`. -/
def stringsReplaceOnce (s pat rep : String) : String :=
  if pat.data.isEmpty then String.mk (rep.data ++ s.data)
  else String.mk (replaceFirstAux pat.data rep.data s.data)

/-! ### File mutation primitives (src/unnamed/part_001) -/

/-- 5 MiB limit for individual files (`maxFileSize` in part_001). -/
def maxFileSize : Nat := 5 * 1024 * 1024

/-- Model of `normalizePath` (part_001:18-23): the function is a
simplified stub in the source — it fails on the literal path
`"error"` and otherwise returns its input unchanged. -/
def normalizePath (pathStr : String) : Except String String :=
  if pathStr = "error" then .error "test error" else .ok pathStr

/-- The flat filesystem seen by the file primitives: an association list
from path to file content, most recent write first. -/
def GoFS := List (String × String)

instance : DecidableEq GoFS := by
  unfold GoFS; infer_instance

instance {ε α : Type} [DecidableEq ε] [DecidableEq α] : DecidableEq (Except ε α) := fun x y =>
  match x, y with
  | .ok a, .ok b =>
    if h : a = b then .isTrue (congrArg Except.ok h)
    else .isFalse (fun hh => h (Except.ok.inj hh))
  | .error a, .error b =>
    if h : a = b then .isTrue (congrArg Except.error h)
    else .isFalse (fun hh => h (Except.error.inj hh))
  | .ok _, .error _ => .isFalse (fun hh => Except.noConfusion hh)
  | .error _, .ok _ => .isFalse (fun hh => Except.noConfusion hh)

/-- Path lookup in the flat filesystem (models `os.ReadFile`/`os.Stat`
succeeding exactly on present paths). -/
def lookupFS : GoFS → String → Option String
  | [], _ => none
  | (p, c) :: t, q => if p = q then some c else lookupFS t q

/-- Removes every entry for path `q` (auxiliary to overwriting). -/
def removeFS : GoFS → String → GoFS
  | [], _ => []
  | (p, c) :: t, q => if p = q then removeFS t q else (p, c) :: removeFS t q

/-- Overwriting insert (models `os.WriteFile` on an existing or new
path). -/
def insertFS (fs : GoFS) (p c : String) : GoFS :=
  (p, c) :: removeFS fs p

/-- Model of `readLocalFile` (part_001:26-48): normalize the path, stat
the file (absent path → stat error), enforce the size ceiling, then read
the content.  In the flat model the stat size is the content length and
no path is a directory, so the `IsDir` branch of the source is not
reachable. -/
def readLocalFile (fs : GoFS) (filePath : String) : Except String String :=
  match normalizePath filePath with
  | .error e => .error ("readLocalFile: " ++ e)
  | .ok np =>
    match lookupFS fs np with
    | none => .error ("failed to stat file " ++ np)
    | some content =>
      if content.length > maxFileSize then
        .error ("file " ++ np ++ " exceeds size limit of " ++ toString maxFileSize ++ " bytes")
      else .ok content

/-- Model of `createOrOverwriteFile` (part_001:51-72): normalize, check
the content size ceiling, create parent directories (always succeeds in
the model) and write, overwriting unconditionally. -/
def createOrOverwriteFile (fs : GoFS) (path content : String) : Except String GoFS :=
  match normalizePath path with
  | .error e => .error ("createOrOverwriteFile: " ++ e)
  | .ok np =>
    if content.length > maxFileSize then
      .error ("content for file " ++ np ++ " exceeds size limit of " ++ toString maxFileSize ++ " bytes")
    else .ok (insertFS fs np content)

/-- Model of `applyDiffEdit` (part_001:75-102): read the file, count the
occurrences of `originalSnippet` with `strings.Count`, fail on zero
(not found) or more than one (ambiguous edit), otherwise replace the
first occurrence and delegate to `createOrOverwriteFile`. -/
def applyDiffEdit (fs : GoFS) (path originalSnippet newSnippet : String) : Except String GoFS :=
  match normalizePath path with
  | .error e => .error ("applyDiffEdit: " ++ e)
  | .ok np =>
    match lookupFS fs np with
    | none => .error ("failed to read file " ++ np ++ " for editing")
    | some content =>
      let count := stringsCount content originalSnippet
      if count = 0 then .error ("original snippet not found in " ++ np)
      else if count > 1 then
        .error ("ambiguous edit: original snippet found " ++ toString count ++ " times in " ++ np
          ++ ". Please provide a more unique snippet")
      else
        let updatedContent := stringsReplaceOnce content originalSnippet newSnippet
        match createOrOverwriteFile fs np updatedContent with
        | .error e => .error ("failed to write updated content to " ++ np ++ ": " ++ e)
        | .ok fs2 => .ok fs2

/-- The null character tested for by the binary probe. -/
def nulChar : Char := Char.ofNat 0

/-- First-1024-bytes null test of `isBinaryFile` (part_001:117-126). -/
def hasNulEarly (content : String) : Bool :=
  (content.data.take 1024).any (fun c => c = nulChar)

/-- Model of `isBinaryFile` (part_001:105-127) over the flat filesystem:
normalize, open the file (absent path → open error), read up to the
first 1024 bytes and look for a null byte. -/
def isBinaryFile (fs : GoFS) (filePath : String) : Except String Bool :=
  match normalizePath filePath with
  | .error e => .error ("isBinaryFile: " ++ e)
  | .ok np =>
    match lookupFS fs np with
    | none => .error ("failed to open file " ++ np)
    | some content => .ok (hasNulEarly content)

/-! ### Streaming tool-call aggregation (src/neo-go/ai_interaction.go:294-314) -/

/-- One aggregated tool call (`openai.ToolCall`): correlation id, type,
function name and raw argument text.  The zero value mirrors Go's
`openai.ToolCall{}`. -/
structure ToolCall where
  id : String := ""
  type : String := ""
  name : String := ""
  arguments : String := ""
deriving DecidableEq

/-- The zero `ToolCall` appended when the slice is grown. -/
def emptyToolCall : ToolCall := {}

/-- One streamed tool-call fragment (`tcDelta` in the receive loop):
a positional index (`nil` possible, then the fragment is skipped), plus
possibly-empty id, type, name and argument pieces. -/
structure ToolCallDelta where
  index : Option Nat
  id : String := ""
  type : String := ""
  name : String := ""
  arguments : String := ""
deriving DecidableEq

/-- Models the `for len(toolCalls) <= idx` growth loop: pad with zero
records until the length exceeds `n - 1`. -/
def growTo (tcs : List ToolCall) (n : Nat) : List ToolCall :=
  tcs ++ List.replicate (n - tcs.length) emptyToolCall

/-- The per-record merge (ai_interaction.go:307-312): concatenate the id
and arguments pieces, overwrite the type, and set the name only when it
is still empty. -/
def applyToolCallDelta (tc : ToolCall) (d : ToolCallDelta) : ToolCall :=
  { id := tc.id ++ d.id
    type := d.type
    name := if tc.name = "" then d.name else tc.name
    arguments := tc.arguments ++ d.arguments }

/-- One iteration of the accumulation loop (ai_interaction.go:296-313):
a fragment with a `nil` index is skipped; otherwise the collection is
grown to cover the index and the fragment is merged in place. -/
def mergeToolCallDelta (tcs : List ToolCall) (d : ToolCallDelta) : List ToolCall :=
  match d.index with
  | none => tcs
  | some idx =>
    let g := growTo tcs (idx + 1)
    g.set idx (applyToolCallDelta (g.getD idx emptyToolCall) d)

/-- The aggregation of a whole fragment sequence, in arrival order. -/
def aggregateToolCalls (ds : List ToolCallDelta) : List ToolCall :=
  ds.foldl mergeToolCallDelta []

/-- The fragments addressed at index `i`, in arrival order. -/
def deltasAt (ds : List ToolCallDelta) (i : Nat) : List ToolCallDelta :=
  ds.filter (fun d => d.index = some i)

/-- Concatenation of a list of string pieces. -/
def joinAll : List String → String
  | [] => ""
  | s :: t => s ++ joinAll t

/-- First non-empty piece of a list of string pieces (empty when there
is none). -/
def firstNonEmptyName : List String → String
  | [] => ""
  | n :: t => if n = "" then firstNonEmptyName t else n

/-- Last piece of a list of string pieces, with a default. -/
def lastPieceD (dflt : String) (l : List String) : String :=
  l.foldl (fun _ x => x) dflt

/-- Number of slots the aggregated collection will have: one past the
highest index seen. -/
def aggLen (ds : List ToolCallDelta) : Nat :=
  ds.foldl (fun n d => match d.index with | none => n | some i => max n (i + 1)) 0

/-! ### Conversation history and trimming (src/neo-go/ai_interaction.go) -/

/-- One conversation message (`openai.ChatCompletionMessage`): role,
text content, attached tool calls, and the correlation fields of
tool-role messages. -/
structure ChatMsg where
  role : String
  content : String := ""
  toolCalls : List ToolCall := []
  toolCallID : String := ""
  name : String := ""
deriving DecidableEq

/-- Role constants of the `go-openai` library. -/
def roleSystem : String := "system"

def roleUser : String := "user"

def roleAssistant : String := "assistant"

def roleTool : String := "tool"

/-- `maxMessagesToKeep` (ai_interaction.go:179). -/
def maxMessagesToKeep : Nat := 15

/-- `minMessagesToTrim` (ai_interaction.go:180). -/
def minMessagesToTrim : Nat := 20

/-- Model of `trimConversationHistory` (ai_interaction.go:178-211).
The single partition pass of the source is the pair of filters below;
`startIdx`'s negative clamp is subsumed by truncated `Nat`
subtraction. -/
def trimConversationHistory (h : List ChatMsg) : List ChatMsg :=
  let systemMessages := h.filter (fun m => m.role = roleSystem)
  let otherMessages := h.filter (fun m => ¬ m.role = roleSystem)
  if otherMessages.length ≤ minMessagesToTrim then h
  else systemMessages ++ otherMessages.drop (otherMessages.length - maxMessagesToKeep)

/-- The system prompt seeded into an empty history.  Its (long) text is
never inspected by any property below, so the constant abbreviates it;
only its role placement matters. -/
def systemPrompt : String := "You are Neo, an elite hacker and software engineer operating within the Matrix."

/-- The seed message `{Role: system, Content: systemPrompt}`. -/
def systemSeedMsg : ChatMsg := { role := roleSystem, content := systemPrompt }

/-! ### Tool dispatch and the streamed turn (src/neo-go/ai_interaction.go:240-506) -/

/-- Abstract model of `json.Unmarshal` against the three argument
structs the switch statement decodes (`file_path`, `FileToCreate`,
`FileToEdit`).  The JSON library is outside the program; each decoder
returns `none` exactly when unmarshalling would fail.  All theorems are
universally quantified over the decoders. -/
structure ArgDecoders where
  readFileD : String → Option String
  createFileD : String → Option (String × String)
  editFileD : String → Option (String × String × String)

/-- Model of the tool-execution `switch tc.Function.Name` block
(ai_interaction.go:393-447) for a single aggregated call: returns the
possibly-updated filesystem and the `toolResultContent` string.  The
source parses `read_file`/`create_file` arguments twice with the same
input, which is equivalent to parsing once.  Only `read_file`,
`create_file` and `edit_file` have cases; every other name (including
the registered `read_multiple_files` and `create_multiple_files`)
falls to the placeholder default. -/
def execToolCall (P : ArgDecoders) (fs : GoFS) (tc : ToolCall) : GoFS × String :=
  if tc.name = "read_file" then
    match P.readFileD tc.arguments with
    | some fp =>
      match readLocalFile fs fp with
      | .error e => (fs, "Error reading file " ++ fp ++ ": " ++ e)
      | .ok content => (fs, "Content of file \x27" ++ fp ++ "\x27:\n\n" ++ content)
    | none => (fs, "Error parsing args for read_file: unmarshal error")
  else if tc.name = "create_file" then
    match P.createFileD tc.arguments with
    | some (p, c) =>
      match createOrOverwriteFile fs p c with
      | .error e => (fs, "Error creating file " ++ p ++ ": " ++ e)
      | .ok fs2 => (fs2, "Successfully created/overwrote file " ++ p)
    | none => (fs, "Error parsing args for create_file: unmarshal error")
  else if tc.name = "edit_file" then
    match P.editFileD tc.arguments with
    | some (p, o, n) =>
      match applyDiffEdit fs p o n with
      | .error e => (fs, "Error editing file " ++ p ++ ": " ++ e)
      | .ok fs2 => (fs2, "Successfully edited file " ++ p)
    | none => (fs, "Error parsing args for edit_file: unmarshal error")
  else
    (fs, "Placeholder: No actual execution for " ++ tc.name ++ " yet.")

/-- The tool-result message appended for one call: role `tool`, the
originating id, the function name, and the captured result content. -/
def toolResultMsg (tc : ToolCall) (content : String) : ChatMsg :=
  { role := roleTool, toolCallID := tc.id, name := tc.name, content := content }

/-- The `for _, tc := range toolCalls` loop (ai_interaction.go:382-455):
executes each call in order, threading the filesystem, and produces one
tool-result message per call. -/
def execToolCalls (P : ArgDecoders) (fs : GoFS) : List ToolCall → GoFS × List ChatMsg
  | [] => (fs, [])
  | tc :: rest =>
    let r := execToolCall P fs tc
    let rr := execToolCalls P r.1 rest
    (rr.1, toolResultMsg tc r.2 :: rr.2)

/-- One received stream message (`response` with its first choice):
a possibly-empty text delta and the tool-call fragments of the delta. -/
structure StreamChunk where
  content : String := ""
  toolCallDeltas : List ToolCallDelta := []
deriving DecidableEq

/-- Outcome of one streaming request: either the stream fails to open
(`CreateChatCompletionStream` returns an error), or a sequence of
received chunks is consumed; `clean` tells whether the receive loop
ended on `io.EOF` (true) or broke on a mid-stream `Recv` error (false).
In both receive-loop exits the source merely breaks out of the loop, so
`clean` does not influence the history. -/
inductive StreamOutcome where
  | openFail
  | recvs (chunks : List StreamChunk) (clean : Bool)
deriving DecidableEq

/-- The two streaming requests a turn can issue: the main one and the
follow-up sent after tool results. -/
structure TurnStreams where
  first : StreamOutcome
  second : StreamOutcome
deriving DecidableEq

/-- Seeding of a `nil` history (ai_interaction.go:242-246). -/
def seedIfNil (h : List ChatMsg) : List ChatMsg :=
  if h.isEmpty then [systemSeedMsg] else h

/-- Model of `StreamAIResponse` (ai_interaction.go:240-506): trim, seed
a nil history, append the user message; on stream-open failure drop the
user message and return.  Otherwise accumulate text and tool-call
fragments from the received chunks (a mid-stream receive error merely
truncates the chunk sequence), append the assistant text message when
non-empty, and when tool calls were aggregated append the
tool-call-bearing assistant message, execute the calls, append their
results and run the follow-up request. -/
def streamAIResponse (P : ArgDecoders) (fs : GoFS) (history : List ChatMsg)
    (userMessage : String) (streams : TurnStreams) : GoFS × List ChatMsg :=
  let h0 := seedIfNil (trimConversationHistory history)
  let h1 := h0 ++ [{ role := roleUser, content := userMessage }]
  match streams.first with
  | .openFail => (fs, h1.dropLast)
  | .recvs chunks _clean =>
    let fullResponse := joinAll (chunks.map (fun c => c.content))
    let toolCalls := aggregateToolCalls (chunks.flatMap (fun c => c.toolCallDeltas))
    let h2 := if fullResponse = "" then h1
              else h1 ++ [{ role := roleAssistant, content := fullResponse }]
    if toolCalls.isEmpty then (fs, h2)
    else
      let assistantMsgWithTools : ChatMsg := { role := roleAssistant, toolCalls := toolCalls }
      let h3 :=
        if fullResponse = "" then h2 ++ [assistantMsgWithTools]
        else if 0 < h2.length ∧ (h2.getLastD { role := "" }).role = roleAssistant then
          h2 ++ [assistantMsgWithTools]
        else h2
      let r := execToolCalls P fs toolCalls
      let h4 := h3 ++ r.2
      match streams.second with
      | .openFail => (r.1, h4)
      | .recvs chunks2 _ =>
        let finalNaturalResponse := joinAll (chunks2.map (fun c => c.content))
        if finalNaturalResponse = "" then (r.1, h4)
        else (r.1, h4 ++ [{ role := roleAssistant, content := finalNaturalResponse }])

/-! ### Directory ingestion (src/unnamed/part_001:129-253) -/

/-- `excludedFiles` (part_001:129-140): directory/file base names that
are skipped. -/
def excludedFiles : List String :=
  [".DS_Store", "Thumbs.db", ".gitignore", ".python-version",
   "uv.lock", ".uv", "uvenv", ".uvenv", ".venv", "venv",
   "__pycache__", ".pytest_cache", ".coverage", ".mypy_cache",
   "node_modules", "package-lock.json", "yarn.lock", "pnpm-lock.yaml",
   ".next", ".nuxt", "dist", "build", ".cache", ".parcel-cache",
   ".turbo", ".vercel", ".output", ".contentlayer",
   "out", "coverage", ".nyc_output", "storybook-static",
   ".env", ".env.local", ".env.development", ".env.production",
   ".git", ".svn", ".hg", "CVS",
   "go.sum"]

/-- `excludedExtensions` (part_001:142-156): lower-cased extensions that
are skipped. -/
def excludedExtensions : List String :=
  [".png", ".jpg", ".jpeg", ".gif", ".ico", ".svg", ".webp", ".avif",
   ".mp4", ".webm", ".mov", ".mp3", ".wav", ".ogg",
   ".zip", ".tar", ".gz", ".7z", ".rar",
   ".exe", ".dll", ".so", ".dylib", ".bin",
   ".pdf", ".doc", ".docx", ".xls", ".xlsx", ".ppt", ".pptx",
   ".pyc", ".pyo", ".pyd", ".egg", ".whl",
   ".uv", ".uvenv",
   ".db", ".sqlite", ".sqlite3", ".log",
   ".idea", ".vscode",
   ".map", ".chunk.js", ".chunk.css",
   ".min.js", ".min.css", ".bundle.js", ".bundle.css",
   ".cache", ".tmp", ".temp",
   ".ttf", ".otf", ".woff", ".woff2", ".eot"]

/-- `maxTotalFiles` (part_001:168). -/
def maxTotalFiles : Nat := 1000

/-- Model of `strings.ToLower` (character-wise lower-casing; the
excluded extensions are ASCII, where Go's and Lean's lowering
coincide). -/
def lowerStr (s : String) : String :=
  String.mk (s.data.map Char.toLower)

/-- Model of `filepath.Ext`: the suffix beginning at the final dot of
the base name, empty when there is no dot. -/
def fileExt (nm : String) : String :=
  if nm.data.any (fun c => c = '.') then
    String.mk ('.' :: (nm.data.reverse.takeWhile (fun c => ¬ c = '.')).reverse)
  else ""

/-- Observable attributes of one file in the scanned tree, as the OS
calls used by the walk report them: the stat size, the text content,
and error injection for the three fallible OS interactions (`d.Info`,
`os.Open`/first read inside `isBinaryFile`, `os.ReadFile`). -/
structure FileAttr where
  size : Nat
  content : String
  statErr : Bool := false
  openErr : Bool := false
  readErr : Bool := false

/-- A directory tree handed to the walk.  `readDirErr` injects a
`ReadDir` failure on a directory (its children are then not
reachable).  Children are listed in the order `filepath.WalkDir`
visits them (the walker visits entries in lexical order; the model
takes the listing order as given). -/
inductive FsEntry where
  | fileE (nm : String) (attr : FileAttr)
  | dirE (nm : String) (readDirErr : Bool) (children : List FsEntry)

/-- Base name of an entry (`d.Name()`). -/
def FsEntry.entryName : FsEntry → String
  | .fileE nm _ => nm
  | .dirE nm _ _ => nm

/-- Walk state: the accumulated `addedFileContents` (insertion-ordered
association list modelling the Go map's insert sequence),
`skippedFilePaths`, and `filesProcessed`. -/
structure ScanState where
  added : List (String × String)
  skipped : List String
  filesProcessed : Nat
deriving DecidableEq

/-- Appends one skip record. -/
def ScanState.skip (st : ScanState) (rec : String) : ScanState :=
  { st with skipped := st.skipped ++ [rec] }

/-- Relative-path join: the root entry is visited with relative path
`"."` (`filepath.Rel(root, root)`); a child of the root gets its bare
name and deeper entries `parentRel ++ "/" ++ name`, which is exactly
`filepath.Rel(root, filepath.Join(...))` for the paths the walk
builds. -/
def joinRel (relp nm : String) : String :=
  if relp = "." then nm else relp ++ "/" ++ nm

/-- The walk callback for an entry reached without a walk error,
before the walker descends (part_001:177-245): quota check, directory
hidden/exclusion pruning, file filters, binary probe and read.  Returns
the new state and the control result (`false` = `nil`,
`true` = `filepath.SkipDir`). -/
def walkCallback (st : ScanState) (path relp : String) : FsEntry → ScanState × Bool
  | .dirE nm _ _ =>
    if st.filesProcessed ≥ maxTotalFiles then (st, true)
    else if goStartsWith nm "." ∧ ¬ nm = "." ∧ ¬ nm = ".." then
      (st.skip (path ++ " (hidden directory)"), true)
    else if nm ∈ excludedFiles then (st.skip (path ++ " (excluded directory name)"), true)
    else (st, false)
  | .fileE nm a =>
    if st.filesProcessed ≥ maxTotalFiles then (st, true)
    else if goStartsWith nm "." then (st.skip (path ++ " (hidden file)"), false)
    else if nm ∈ excludedFiles then (st.skip (path ++ " (excluded file name)"), false)
    else if lowerStr (fileExt nm) ∈ excludedExtensions then
      (st.skip (path ++ " (excluded extension)"), false)
    else if a.statErr then (st.skip (path ++ " (stat error: stat failure)"), false)
    else if a.size > maxFileSize then
      (st.skip (path ++ " (exceeds size limit " ++ toString a.size ++ " > "
        ++ toString maxFileSize ++ ")"), false)
    else if a.openErr then (st.skip (path ++ " (binary check error: open failure)"), false)
    else if hasNulEarly a.content then (st.skip (path ++ " (binary file)"), false)
    else if a.readErr then (st.skip (path ++ " (read error: read failure)"), false)
    else
      { st with added := st.added ++ [(relp, a.content)],
                filesProcessed := st.filesProcessed + 1 }
      |> (fun st2 => (st2, false))

mutual

/-- Model of `filepath.WalkDir`'s recursive `walkDir` specialised to
the callback above, for an entry whose full path is `path` and whose
path relative to the scan root is `relp`.  The returned flag is true
exactly when `walkDir` returns `filepath.SkipDir` to its caller (a
quota hit on a file entry), which makes the parent loop stop early;
every other control path returns `nil`.  A directory `ReadDir` failure
re-invokes the callback with the error, which records a skip and
continues with no children. -/
def walkEntry (st : ScanState) (path relp : String) (e : FsEntry) : ScanState × Bool :=
  match e with
  | .fileE nm a =>
    let r := walkCallback st path relp (.fileE nm a)
    (r.1, r.2)
  | .dirE nm rerr children =>
    let r := walkCallback st path relp (.dirE nm rerr children)
    if r.2 then (r.1, false)
    else if rerr then (r.1.skip (path ++ " (walk error: readdir failure)"), false)
    else (walkChildren r.1 path relp children, false)

/-- The `for _, d1 := range dirs` loop: walk each child in order,
stopping early when a child's walk returns `SkipDir`. -/
def walkChildren (st : ScanState) (path relp : String) : List FsEntry → ScanState
  | [] => st
  | c :: cs =>
    let r := walkEntry st (path ++ "/" ++ c.entryName) (joinRel relp c.entryName) c
    if r.2 then r.1 else walkChildren r.1 path relp cs

end

/-- Model of `addDirectoryToConversationHelper` (part_001:159-253).
The scanned tree is passed explicitly: `none` models a root the OS
cannot stat (`os.Lstat(root)` fails), in which case `filepath.WalkDir`
invokes the callback once with the error — which records a skip and
returns `nil` — and the call still succeeds.  The only hard error is a
`normalizePath` failure. -/
def addDirectoryToConversationHelper (directoryPath : String) (root : Option FsEntry) :
    Except String (List (String × String) × List String) :=
  match normalizePath directoryPath with
  | .error e => .error ("addDirectoryToConversationHelper: " ++ e)
  | .ok np =>
    match root with
    | none => .ok ([], [np ++ " (walk error: stat root failure)"])
    | some e =>
      let r := walkEntry { added := [], skipped := [], filesProcessed := 0 } np "." e
      .ok (r.1.added, r.1.skipped)

mutual

/-- All files of an entry, as `(relative path, content)` pairs in
depth-first (traversal) order, ignoring every filter.  This is the
declarative reference order against which the scan result is
compared. -/
def relFilesE (relp : String) : FsEntry → List (String × String)
  | .fileE _ a => [(relp, a.content)]
  | .dirE _ _ children => relFilesL relp children

/-- Files of a child list in order. -/
def relFilesL (relp : String) : List FsEntry → List (String × String)
  | [] => []
  | c :: cs => relFilesE (joinRel relp c.entryName) c ++ relFilesL relp cs

end

/-! ### Incremental text formatter (src/unnamed/part_000:222-293) -/

/-- Model of `strings.TrimSpace` (ASCII whitespace). -/
def trimSpace (s : String) : String :=
  String.mk (((s.data.dropWhile Char.isWhitespace).reverse.dropWhile Char.isWhitespace).reverse)

/-- Model of `strings.TrimLeft` with a cutset: drop leading characters
belonging to the cutset. -/
def trimLeftCutset (s cutset : String) : String :=
  String.mk (s.data.dropWhile (fun c => c ∈ cutset.data))

/-- Word splitter modelling `strings.Fields`: maximal runs of
non-whitespace characters. -/
def fieldsAux : List Char → List Char → List (List Char)
  | [], acc => if acc.isEmpty then [] else [acc.reverse]
  | c :: cs, acc =>
    if c.isWhitespace then
      if acc.isEmpty then fieldsAux cs [] else acc.reverse :: fieldsAux cs []
    else fieldsAux cs (c :: acc)

/-- Model of `strings.Fields`. -/
def goFields (s : String) : List String :=
  (fieldsAux s.data []).map String.mk

/-- Model of `strings.Join(l, " ")`. -/
def joinSpace : List String → String
  | [] => ""
  | [s] => s
  | s :: t => s ++ " " ++ joinSpace t

/-- What `formatAndPrintLine` prints for one line (part_000:244-282).
`panicked` models the out-of-range byte-slice `trimmedLine[:2]`, taken
on any line whose trimmed form is exactly one byte long and which
reaches the numbered-item test. -/
inductive RenderEvent where
  | codeHeader (lang : String)
  | codeFooter
  | codeLine (line : String)
  | bulletItem (txt : String)
  | numberedItem (numTok rest : String)
  | plainLine (txt : String)
  | blankLine
  | panicked
deriving DecidableEq

/-- The numbered-item test of part_000:267 for a trimmed line of at
least two characters: a digit among the first two characters, the
(vacuously true) `HasPrefix(TrimLeft(...), "")` conjunct, and a
`". "` or `") "` occurring anywhere. -/
def numberedCond (t : String) : Bool :=
  (t.data.take 2).any Char.isDigit
    && goStartsWith (trimLeftCutset t "0123456789. ") ""
    && (goContains t ". " || goContains t ") ")

/-- Model of `formatAndPrintLine` (part_000:244-282): given the fence
state and its language, classify and render one complete line,
returning the new state and the printed event.  The source indexes
`trimmedLine[:2]` after only checking `len(trimmedLine) > 0`, so a
one-byte trimmed line that reaches this test panics. -/
def formatAndPrintLine (inCodeBlock : Bool) (codeLanguage : String) (line : String) :
    (Bool × String) × RenderEvent :=
  let trimmedLine := trimSpace line
  if goStartsWith trimmedLine "```" then
    if ¬ inCodeBlock then
      let lang0 := trimSpace (String.mk (trimmedLine.data.drop 3))
      let lang := if lang0 = "" then "text" else lang0
      ((true, lang), .codeHeader lang)
    else ((false, codeLanguage), .codeFooter)
  else if inCodeBlock then ((inCodeBlock, codeLanguage), .codeLine line)
  else
    let st := (inCodeBlock, codeLanguage)
    if goStartsWith trimmedLine "* " || goStartsWith trimmedLine "- " then
      (st, .bulletItem (trimSpace (String.mk (trimmedLine.data.drop 2))))
    else if 0 < trimmedLine.length then
      if trimmedLine.length = 1 then (st, .panicked)
      else if numberedCond trimmedLine then
        match goFields trimmedLine with
        | [] => (st, .plainLine trimmedLine)
        | numPart :: rest => (st, .numberedItem numPart (trimSpace (joinSpace rest)))
      else (st, .plainLine trimmedLine)
    else (st, .blankLine)

/-- Spec-side shape of a numbered line: begins with a non-empty run of
digits followed by `". "` or `") "`.  This definition follows the
spec's words and is compared against the source's test. -/
def specNumberedShape (t : String) : Bool :=
  let ds := t.data.takeWhile Char.isDigit
  let rest := t.data.dropWhile Char.isDigit
  ¬ ds.isEmpty && (isPre ['.', ' '] rest || isPre [')', ' '] rest)

/-- Concrete fragment data: a tool-call delta carrying a whole name
piece, and a fragmentation of the same fields into two deltas that
splits the name. -/
def c1FragWhole : ToolCallDelta :=
  { index := some 0, id := "i", type := "function", name := "ab", arguments := "x" }

/-- The split fragmentation of `c1FragWhole`: same concatenated id,
name and arguments, same types, the name arriving as `"a"` then
`"b"`. -/
def c1FragSplit : List ToolCallDelta :=
  [{ index := some 0, id := "i", type := "function", name := "a", arguments := "x" },
   { index := some 0, id := "", type := "function", name := "b", arguments := "" }]

/-- Concrete fragment data for the invariance direction: a whole
fragment. -/
def c1WholeW : ToolCallDelta :=
  { index := some 0, id := "ab", type := "function", name := "f", arguments := "xy" }

/-- A different fragmentation agreeing with `[c1WholeW]` on every
per-index derived value. -/
def c1SplitW : List ToolCallDelta :=
  [{ index := some 0, id := "a", type := "function", name := "f", arguments := "x" },
   { index := some 0, id := "b", type := "function", name := "", arguments := "y" }]

/-! ### Basic lemmas about the flat filesystem -/

theorem lookupFS_removeFS (fs : GoFS) (p q : String) (h : p ≠ q) :
    lookupFS (removeFS fs p) q = lookupFS fs q := by
  induction fs with
  | nil => rfl
  | cons e t ih =>
    rcases e with ⟨ep, ec⟩
    by_cases hep : ep = p
    · have hq : ep ≠ q := by rw [hep]; exact h
      simp [removeFS, hep, lookupFS, hq, ih, h]
    · by_cases hq : ep = q <;> simp [removeFS, hep, lookupFS, hq, ih, h, Ne.symm h]

theorem lookupFS_insertFS (fs : GoFS) (p c q : String) :
    lookupFS (insertFS fs p c) q = if p = q then some c else lookupFS fs q := by
  unfold insertFS
  by_cases h : p = q
  · simp [lookupFS, h]
  · simp [lookupFS, h, lookupFS_removeFS fs p q h]


/-! ### C2 — editBySnippet occurrence policy -/

/-- C2 (amended): with occurrences counted as `strings.Count` counts
them — left to right, non-overlapping — `applyDiffEdit` fails with the
not-found error on zero occurrences, fails with the ambiguous-edit
error (and performs no write) on more than one, and on exactly one
replaces the first occurrence and delegates to the write primitive.
The original claim counts every exact-substring occurrence, including
overlapping ones; `claim2_counterexample` shows that reading is false
on the code. -/
theorem claim2_edit_occurrence_policy
    (fs : GoFS) (path orig new content : String)
    (hp : ¬ path = "error") (hr : lookupFS fs path = some content) :
    (stringsCount content orig = 0 →
      applyDiffEdit fs path orig new = .error ("original snippet not found in " ++ path)) ∧
    (1 < stringsCount content orig →
      applyDiffEdit fs path orig new =
        .error ("ambiguous edit: original snippet found " ++ toString (stringsCount content orig)
          ++ " times in " ++ path ++ ". Please provide a more unique snippet") ∧
      ∀ fs2, ¬ applyDiffEdit fs path orig new = .ok fs2) ∧
    (stringsCount content orig = 1 →
      ∀ fs2, createOrOverwriteFile fs path (stringsReplaceOnce content orig new) = .ok fs2 →
        applyDiffEdit fs path orig new = .ok fs2) := by
  have hn : normalizePath path = .ok path := by simp [normalizePath, hp]
  refine ⟨?_, ?_, ?_⟩
  · intro h0
    simp [applyDiffEdit, hn, hr, h0]
  · intro h1
    have h0 : ¬ stringsCount content orig = 0 := by omega
    constructor
    · simp [applyDiffEdit, hn, hr, h0, h1]
    · intro fs2
      simp [applyDiffEdit, hn, hr, h0, h1]
  · intro h1 fs2 hw
    have h0 : ¬ stringsCount content orig = 0 := by omega
    have hlt : ¬ 1 < stringsCount content orig := by omega
    simp [applyDiffEdit, hn, hr, h0, h1, hlt, hw]

/-- C2 counterexample: the file content `"aaa"` contains the snippet
`"aa"` twice as an exact substring (positions 0 and 1), yet the edit is
not rejected as ambiguous — `strings.Count` sees only one
non-overlapping instance and the code replaces it. -/
theorem claim2_counterexample :
    1 < specSubstrOcc "aaa" "aa" ∧
    applyDiffEdit [("f.txt", "aaa")] "f.txt" "aa" "b" = .ok [("f.txt", "ba")] := by
  exact ⟨by decide, by decide⟩

/-- C2 witness: the three branches at concrete inputs. -/
theorem claim2_witness :
    applyDiffEdit [("a.txt", "xyx")] "a.txt" "q" "z"
      = .error ("original snippet not found in " ++ "a.txt") ∧
    applyDiffEdit [("a.txt", "xyx")] "a.txt" "x" "z"
      = .error ("ambiguous edit: original snippet found " ++ toString (stringsCount "xyx" "x")
          ++ " times in " ++ "a.txt" ++ ". Please provide a more unique snippet") ∧
    applyDiffEdit [("a.txt", "xyx")] "a.txt" "y" "z" = .ok [("a.txt", "xzx")] := by
  refine ⟨?_, ?_, ?_⟩
  · exact (claim2_edit_occurrence_policy [("a.txt", "xyx")] "a.txt" "q" "z" "xyx"
      (by decide) (by decide)).1 (by decide)
  · exact ((claim2_edit_occurrence_policy [("a.txt", "xyx")] "a.txt" "x" "z" "xyx"
      (by decide) (by decide)).2.1 (by decide)).1
  · exact (claim2_edit_occurrence_policy [("a.txt", "xyx")] "a.txt" "y" "z" "xyx"
      (by decide) (by decide)).2.2 (by decide) [("a.txt", "xzx")] (by decide)

/-! ### C6 — editBySnippet is not silently double-applied -/

/-- C6 (amended): when a first `applyDiffEdit` succeeds and the
original snippet does not occur in the updated content (which the
counterexample shows is a necessary proviso — e.g. a new snippet
containing the original recreates an occurrence), the second
application with the same snippets fails with the not-found error and
performs no write. -/
theorem claim6_no_silent_double_edit
    (fs : GoFS) (path orig new content : String)
    (hp : ¬ path = "error") (hr : lookupFS fs path = some content)
    (h1 : stringsCount content orig = 1)
    (hlen : ¬ (stringsReplaceOnce content orig new).length > maxFileSize)
    (h0 : stringsCount (stringsReplaceOnce content orig new) orig = 0) :
    applyDiffEdit fs path orig new
      = .ok (insertFS fs path (stringsReplaceOnce content orig new)) ∧
    applyDiffEdit (insertFS fs path (stringsReplaceOnce content orig new)) path orig new
      = .error ("original snippet not found in " ++ path) ∧
    ∀ fs3, ¬ applyDiffEdit (insertFS fs path (stringsReplaceOnce content orig new)) path orig new
      = .ok fs3 := by
  have hn : normalizePath path = .ok path := by simp [normalizePath, hp]
  have hw : createOrOverwriteFile fs path (stringsReplaceOnce content orig new)
      = .ok (insertFS fs path (stringsReplaceOnce content orig new)) := by
    simp [createOrOverwriteFile, hn, hlen]
  have h10 : ¬ stringsCount content orig = 0 := by omega
  have h1lt : ¬ 1 < stringsCount content orig := by omega
  have hlook : lookupFS (insertFS fs path (stringsReplaceOnce content orig new)) path
      = some (stringsReplaceOnce content orig new) := by
    simp [lookupFS_insertFS]
  refine ⟨?_, ?_, ?_⟩
  · simp [applyDiffEdit, hn, hr, h10, h1, h1lt, hw]
  · simp [applyDiffEdit, hn, hlook, h0]
  · intro fs3
    simp [applyDiffEdit, hn, hlook, h0]

/-- C6 counterexample: with file content `"ab"`, original snippet
`"ab"` and new snippet `"cabd"`, the first edit succeeds and the second
application with the same snippets succeeds again — it finds the
original inside the new text and silently double-edits instead of
failing with the not-found error. -/
theorem claim6_counterexample :
    applyDiffEdit [("f", "ab")] "f" "ab" "cabd" = .ok [("f", "cabd")] ∧
    applyDiffEdit [("f", "cabd")] "f" "ab" "cabd" = .ok [("f", "ccabdd")] := by
  exact ⟨by decide, by decide⟩

/-- C6 witness: `"ab" → "xy"` in a file `"ab"`; the second application
fails with not-found. -/
theorem claim6_witness :
    applyDiffEdit [("g.txt", "ab")] "g.txt" "ab" "xy"
      = .ok (insertFS [("g.txt", "ab")] "g.txt" (stringsReplaceOnce "ab" "ab" "xy")) ∧
    applyDiffEdit (insertFS [("g.txt", "ab")] "g.txt" (stringsReplaceOnce "ab" "ab" "xy"))
        "g.txt" "ab" "xy"
      = .error ("original snippet not found in " ++ "g.txt") ∧
    ∀ fs3, ¬ applyDiffEdit (insertFS [("g.txt", "ab")] "g.txt" (stringsReplaceOnce "ab" "ab" "xy"))
        "g.txt" "ab" "xy" = .ok fs3 :=
  claim6_no_silent_double_edit [("g.txt", "ab")] "g.txt" "ab" "xy" "ab"
    (by decide) (by decide) (by decide) (by decide) (by decide)

/-! ### C10 — the "error" path sentinel -/

/-- C10: every path-taking file operation fails when the supplied path
is exactly `"error"` (the `normalizePath` stub's sentinel), regardless
of the filesystem, and for every other path `normalizePath` returns its
input unchanged and never fails. -/
theorem claim10_path_error_policy :
    (∀ fs, readLocalFile fs "error" = .error ("readLocalFile: " ++ "test error")) ∧
    (∀ fs c, createOrOverwriteFile fs "error" c
      = .error ("createOrOverwriteFile: " ++ "test error")) ∧
    (∀ fs o n, applyDiffEdit fs "error" o n = .error ("applyDiffEdit: " ++ "test error")) ∧
    (∀ fs, isBinaryFile fs "error" = .error ("isBinaryFile: " ++ "test error")) ∧
    (∀ root, addDirectoryToConversationHelper "error" root
      = .error ("addDirectoryToConversationHelper: " ++ "test error")) ∧
    ∀ p, ¬ p = "error" → normalizePath p = .ok p := by
  refine ⟨fun fs => rfl, fun fs c => rfl, fun fs o n => rfl, fun fs => rfl, fun root => rfl,
    fun p hp => ?_⟩
  simp [normalizePath, hp]

/-- C10 witness: a non-sentinel path normalizes to itself. -/
theorem claim10_witness : normalizePath "a.txt" = .ok "a.txt" :=
  claim10_path_error_policy.2.2.2.2.2 "a.txt" (by decide)


/-! ### C3 — history trimming -/

/-- C3 (amended): trimming preserves the system messages exactly (same
messages, same order); when the non-system count N exceeds 20 the
result is the system messages followed by the most recent 15 non-system
messages, so the post-trim non-system count is min(N, 15); when N is at
most 20 the history is returned entirely unchanged — in particular the
system messages stay interleaved where they were, not reassembled in
front (the original claim's "in every case ... reassembled before" is
refuted by `claim3_counterexample`). -/
theorem claim3_trimming_policy (h : List ChatMsg) :
    ((trimConversationHistory h).filter (fun m => m.role = roleSystem)
      = h.filter (fun m => m.role = roleSystem)) ∧
    (((trimConversationHistory h).filter (fun m => ¬ m.role = roleSystem)).length
      = if minMessagesToTrim < (h.filter (fun m => ¬ m.role = roleSystem)).length
        then min (h.filter (fun m => ¬ m.role = roleSystem)).length maxMessagesToKeep
        else (h.filter (fun m => ¬ m.role = roleSystem)).length) ∧
    (minMessagesToTrim < (h.filter (fun m => ¬ m.role = roleSystem)).length →
      trimConversationHistory h
        = h.filter (fun m => m.role = roleSystem)
          ++ (h.filter (fun m => ¬ m.role = roleSystem)).drop
              ((h.filter (fun m => ¬ m.role = roleSystem)).length - maxMessagesToKeep)) ∧
    ((h.filter (fun m => ¬ m.role = roleSystem)).length ≤ minMessagesToTrim →
      trimConversationHistory h = h) := by
  by_cases hc : (h.filter (fun m => ¬ m.role = roleSystem)).length ≤ minMessagesToTrim
  · have ht : trimConversationHistory h = h := by
      simp only [trimConversationHistory]
      rw [if_pos hc]
    refine ⟨by rw [ht], ?_, fun hlt => absurd hlt (by omega), fun _ => ht⟩
    rw [ht, if_neg (by omega)]
  · have ht : trimConversationHistory h
        = h.filter (fun m => m.role = roleSystem)
          ++ (h.filter (fun m => ¬ m.role = roleSystem)).drop
              ((h.filter (fun m => ¬ m.role = roleSystem)).length - maxMessagesToKeep) := by
      simp only [trimConversationHistory]
      rw [if_neg hc]
    have hsys_all : ∀ m ∈ h.filter (fun m => m.role = roleSystem),
        (fun m : ChatMsg => decide (m.role = roleSystem)) m = true := by
      intro m hm
      exact (List.mem_filter.mp hm).2
    have hoth_all : ∀ m ∈ (h.filter (fun m => ¬ m.role = roleSystem)).drop
        ((h.filter (fun m => ¬ m.role = roleSystem)).length - maxMessagesToKeep),
        (fun m : ChatMsg => decide (¬ m.role = roleSystem)) m = true := by
      intro m hm
      exact (List.mem_filter.mp (List.drop_subset _ _ hm)).2
    refine ⟨?_, ?_, fun _ => ht, fun hle => absurd hle hc⟩
    · rw [ht, List.filter_append]
      have h1 : (h.filter (fun m => m.role = roleSystem)).filter
          (fun m => m.role = roleSystem) = h.filter (fun m => m.role = roleSystem) :=
        List.filter_eq_self.mpr hsys_all
      have h2 : ((h.filter (fun m => ¬ m.role = roleSystem)).drop
          ((h.filter (fun m => ¬ m.role = roleSystem)).length - maxMessagesToKeep)).filter
          (fun m => m.role = roleSystem) = [] := by
        rw [List.filter_eq_nil_iff]
        intro m hm
        have := hoth_all m hm
        simp only [decide_not] at this ⊢
        simp only [Bool.not_eq_true'] at this
        simp [this]
      rw [h1, h2, List.append_nil]
    · rw [ht, List.filter_append]
      have h1 : (h.filter (fun m => m.role = roleSystem)).filter
          (fun m => ¬ m.role = roleSystem) = [] := by
        rw [List.filter_eq_nil_iff]
        intro m hm
        have := hsys_all m hm
        simp only [decide_eq_true_eq] at this
        simp [this]
      have h2 : ((h.filter (fun m => ¬ m.role = roleSystem)).drop
          ((h.filter (fun m => ¬ m.role = roleSystem)).length - maxMessagesToKeep)).filter
          (fun m => ¬ m.role = roleSystem)
          = (h.filter (fun m => ¬ m.role = roleSystem)).drop
              ((h.filter (fun m => ¬ m.role = roleSystem)).length - maxMessagesToKeep) :=
        List.filter_eq_self.mpr hoth_all
      rw [h1, h2, List.nil_append, List.length_drop, if_pos (by omega)]
      simp only [maxMessagesToKeep] at hc ⊢
      omega

/-- C3 counterexample: a history of one user message followed by one
system message has non-system count 1, so trimming leaves it untouched
— the system message stays after the user message instead of being
reassembled in front of the retained non-system messages, refuting the
claim's "in every case" clause. -/
theorem claim3_counterexample :
    trimConversationHistory [{ role := "user", content := "u" }, { role := "system", content := "s" }]
      = [{ role := "user", content := "u" }, { role := "system", content := "s" }] ∧
    ¬ trimConversationHistory
        [{ role := "user", content := "u" }, { role := "system", content := "s" }]
      = ([{ role := "user", content := "u" }, { role := "system", content := "s" }].filter
          (fun m => m.role = roleSystem))
        ++ ([{ role := "user", content := "u" }, { role := "system", content := "s" }].filter
          (fun m => ¬ m.role = roleSystem)) := by
  exact ⟨by decide, by decide⟩

/-- C3 witness: both branches of the policy at concrete histories — an
untrimmed two-message history and a 21-user-message history trimmed to
its last 15. -/
theorem claim3_witness :
    trimConversationHistory [{ role := "user", content := "u" }, { role := "system", content := "s" }]
      = [{ role := "user", content := "u" }, { role := "system", content := "s" }] ∧
    trimConversationHistory (List.replicate 21 ({ role := "user", content := "u" } : ChatMsg))
      = (List.replicate 21 ({ role := "user", content := "u" } : ChatMsg)).filter
          (fun m => m.role = roleSystem)
        ++ ((List.replicate 21 ({ role := "user", content := "u" } : ChatMsg)).filter
            (fun m => ¬ m.role = roleSystem)).drop
            (((List.replicate 21 ({ role := "user", content := "u" } : ChatMsg)).filter
              (fun m => ¬ m.role = roleSystem)).length - maxMessagesToKeep) := by
  constructor
  · exact (claim3_trimming_policy
      [{ role := "user", content := "u" }, { role := "system", content := "s" }]).2.2.2 (by decide)
  · exact (claim3_trimming_policy
      (List.replicate 21 ({ role := "user", content := "u" } : ChatMsg))).2.2.1 (by decide)


/-! ### C4 — rollback of the in-flight user message -/

/-- C4 (amended): the in-flight user message is rolled back only when
the stream fails to open — then the post-call history is exactly the
trimmed (and, if empty, seeded) pre-turn history.  When the stream
opens and a receive later fails mid-stream, the receive loop merely
stops early: the user message (followed by whatever was accumulated)
remains in the history, as `claim4_counterexample` shows on the
unamended claim. -/
theorem claim4_rollback_policy (P : ArgDecoders) (fs : GoFS) (h : List ChatMsg)
    (u : String) (second : StreamOutcome) :
    (streamAIResponse P fs h u ⟨.openFail, second⟩
      = (fs, seedIfNil (trimConversationHistory h))) ∧
    (∀ chunks clean,
      (seedIfNil (trimConversationHistory h) ++ [{ role := roleUser, content := u }])
        <+: (streamAIResponse P fs h u ⟨.recvs chunks clean, second⟩).2) := by
  constructor
  · simp [streamAIResponse, List.dropLast_concat]
  · intro chunks clean
    simp only [streamAIResponse]
    repeat' split
    all_goals simp only [← List.append_assoc]
    all_goals first
      | exact List.prefix_rfl
      | exact List.prefix_append _ _
      | exact (List.prefix_append _ _).trans (List.prefix_append _ _)
      | exact ((List.prefix_append _ _).trans (List.prefix_append _ _)).trans
          (List.prefix_append _ _)
      | exact (((List.prefix_append _ _).trans (List.prefix_append _ _)).trans
          (List.prefix_append _ _)).trans (List.prefix_append _ _)

/-- C4 counterexample: with pre-turn history `[system]`, a stream that
opens and then immediately fails on the first receive leaves the
history as `[system, user]` — the in-flight user message is not rolled
back, so the post-turn history differs from the pre-turn history. -/
theorem claim4_counterexample :
    (streamAIResponse ⟨fun _ => none, fun _ => none, fun _ => none⟩ []
        [{ role := "system", content := "s" }] "hi" ⟨.recvs [] false, .openFail⟩).2
      = [{ role := "system", content := "s" }, { role := "user", content := "hi" }] ∧
    ¬ (streamAIResponse ⟨fun _ => none, fun _ => none, fun _ => none⟩ []
        [{ role := "system", content := "s" }] "hi" ⟨.recvs [] false, .openFail⟩).2
      = [{ role := "system", content := "s" }] := by
  exact ⟨by decide, by decide⟩

/-! ### C5 — tool dispatch -/

/-- C5 (amended): for an aggregated call the orchestrator dispatches to
the matching file primitive only for the names `read_file`,
`create_file` and `edit_file` — capturing either the primitive's
success summary or its error text, with a parse failure reported as an
error-description result instead of aborting — while the registered
names `read_multiple_files` and `create_multiple_files` (and any other
name) produce a placeholder result and touch nothing; one tool-result
message is produced per call, in order, carrying the call's id and
name. -/
theorem claim5_tool_dispatch (P : ArgDecoders) (fs : GoFS) (tc : ToolCall) :
    (∀ fp, tc.name = "read_file" → P.readFileD tc.arguments = some fp →
      execToolCall P fs tc =
        (match readLocalFile fs fp with
         | .error e => (fs, "Error reading file " ++ fp ++ ": " ++ e)
         | .ok content => (fs, "Content of file \x27" ++ fp ++ "\x27:\n\n" ++ content))) ∧
    (tc.name = "read_file" → P.readFileD tc.arguments = none →
      execToolCall P fs tc = (fs, "Error parsing args for read_file: unmarshal error")) ∧
    (∀ p c, tc.name = "create_file" → P.createFileD tc.arguments = some (p, c) →
      execToolCall P fs tc =
        (match createOrOverwriteFile fs p c with
         | .error e => (fs, "Error creating file " ++ p ++ ": " ++ e)
         | .ok fs2 => (fs2, "Successfully created/overwrote file " ++ p))) ∧
    (tc.name = "create_file" → P.createFileD tc.arguments = none →
      execToolCall P fs tc = (fs, "Error parsing args for create_file: unmarshal error")) ∧
    (∀ p o n, tc.name = "edit_file" → P.editFileD tc.arguments = some (p, o, n) →
      execToolCall P fs tc =
        (match applyDiffEdit fs p o n with
         | .error e => (fs, "Error editing file " ++ p ++ ": " ++ e)
         | .ok fs2 => (fs2, "Successfully edited file " ++ p))) ∧
    (tc.name = "edit_file" → P.editFileD tc.arguments = none →
      execToolCall P fs tc = (fs, "Error parsing args for edit_file: unmarshal error")) ∧
    (tc.name = "read_multiple_files" →
      execToolCall P fs tc
        = (fs, "Placeholder: No actual execution for " ++ tc.name ++ " yet.")) ∧
    (tc.name = "create_multiple_files" →
      execToolCall P fs tc
        = (fs, "Placeholder: No actual execution for " ++ tc.name ++ " yet.")) ∧
    (∀ tcs, List.Forall₂ (fun (c : ToolCall) (m : ChatMsg) => ∃ s, m = toolResultMsg c s)
      tcs (execToolCalls P fs tcs).2) := by
  refine ⟨?_, ?_, ?_, ?_, ?_, ?_, ?_, ?_, ?_⟩
  · intro fp hn hp
    unfold execToolCall
    rw [hn, if_pos rfl, hp]
  · intro hn hp
    unfold execToolCall
    rw [hn, if_pos rfl, hp]
  · intro p c hn hp
    unfold execToolCall
    rw [hn, if_neg (by decide), if_pos rfl, hp]
  · intro hn hp
    unfold execToolCall
    rw [hn, if_neg (by decide), if_pos rfl, hp]
  · intro p o n hn hp
    unfold execToolCall
    rw [hn, if_neg (by decide), if_neg (by decide), if_pos rfl, hp]
  · intro hn hp
    unfold execToolCall
    rw [hn, if_neg (by decide), if_neg (by decide), if_pos rfl, hp]
  · intro hn
    unfold execToolCall
    rw [hn, if_neg (by decide), if_neg (by decide), if_neg (by decide)]
  · intro hn
    unfold execToolCall
    rw [hn, if_neg (by decide), if_neg (by decide), if_neg (by decide)]
  · intro tcs
    induction tcs generalizing fs with
    | nil => exact List.Forall₂.nil
    | cons c rest ih =>
      simp only [execToolCalls]
      exact List.Forall₂.cons ⟨_, rfl⟩ (ih _)

/-- C5 counterexample: a `create_multiple_files` call with well-formed
arguments for one file is not dispatched to the write primitive — the
filesystem is left unchanged (while the primitive itself would have
created the file) and the result content is a placeholder rather than
the primitive's success summary or error text. -/
theorem claim5_counterexample :
    execToolCall ⟨fun _ => none, fun _ => none, fun _ => none⟩ []
        { id := "1", type := "function", name := "create_multiple_files",
          arguments := "\x7b\"files\": [\x7b\"path\": \"a.txt\", \"content\": \"x\"\x7d]\x7d" }
      = ([], "Placeholder: No actual execution for create_multiple_files yet.") ∧
    createOrOverwriteFile [] "a.txt" "x" = .ok [("a.txt", "x")] := by
  exact ⟨by decide, by decide⟩

/-- C5 witness: a parsed `create_file` call dispatches to the write
primitive; a `read_multiple_files` call yields the placeholder. -/
theorem claim5_witness :
    execToolCall ⟨fun _ => none, fun a => if a = "ARGS" then some ("b.txt", "hello") else none,
        fun _ => none⟩ []
        { id := "1", type := "function", name := "create_file", arguments := "ARGS" }
      = (match createOrOverwriteFile [] "b.txt" "hello" with
         | .error e => (([] : GoFS), "Error creating file " ++ "b.txt" ++ ": " ++ e)
         | .ok fs2 => (fs2, "Successfully created/overwrote file " ++ "b.txt")) ∧
    execToolCall ⟨fun _ => none, fun _ => none, fun _ => none⟩ []
        { id := "2", type := "function", name := "read_multiple_files", arguments := "x" }
      = ([], "Placeholder: No actual execution for "
          ++ ({ id := "2", type := "function", name := "read_multiple_files",
                arguments := "x" } : ToolCall).name ++ " yet.") := by
  constructor
  · exact (claim5_tool_dispatch
      ⟨fun _ => none, fun a => if a = "ARGS" then some ("b.txt", "hello") else none, fun _ => none⟩
      [] { id := "1", type := "function", name := "create_file", arguments := "ARGS" }).2.2.1
      "b.txt" "hello" (by decide) (by decide)
  · exact (claim5_tool_dispatch ⟨fun _ => none, fun _ => none, fun _ => none⟩
      [] { id := "2", type := "function", name := "read_multiple_files",
           arguments := "x" }).2.2.2.2.2.2.1 (by decide)

/-! ### C9 — numbered-item detection in the formatter -/

/-- C9 (amended): outside a code fence, a complete line is rendered as
a numbered item exactly when its trimmed form has at least two
characters, a digit occurs among the first two, and `". "` or `") "`
occurs anywhere in it (the number token is the first
whitespace-delimited field); a trimmed line of exactly one character
that reaches the test panics on the out-of-range slice
`trimmedLine[:2]`; other non-fence non-bullet lines render as plain
text, and blank lines as blank.  The original claim's digit-run-only
reading is refuted by `claim9_counterexample`. -/
theorem claim9_numbered_detection (line lang : String)
    (hfence : goStartsWith (trimSpace line) "```" = false)
    (hbullet : (goStartsWith (trimSpace line) "* " || goStartsWith (trimSpace line) "- ")
      = false) :
    (∀ n r, 2 ≤ (trimSpace line).length → numberedCond (trimSpace line) = true →
      goFields (trimSpace line) = n :: r →
      formatAndPrintLine false lang line
        = ((false, lang), .numberedItem n (trimSpace (joinSpace r)))) ∧
    (2 ≤ (trimSpace line).length → numberedCond (trimSpace line) = false →
      formatAndPrintLine false lang line = ((false, lang), .plainLine (trimSpace line))) ∧
    ((trimSpace line).length = 1 →
      formatAndPrintLine false lang line = ((false, lang), .panicked)) ∧
    ((trimSpace line).length = 0 →
      formatAndPrintLine false lang line = ((false, lang), .blankLine)) ∧
    (numberedCond (trimSpace line)
      = ((((trimSpace line).data.take 2).any Char.isDigit)
         && (goContains (trimSpace line) ". " || goContains (trimSpace line) ") "))) := by
  have hvac : ∀ x : String, goStartsWith x "" = true := fun _ => rfl
  refine ⟨?_, ?_, ?_, ?_, ?_⟩
  · intro n r hlen hcond hfields
    have h1 : ¬ (trimSpace line).length = 1 := by omega
    have h0 : 0 < (trimSpace line).length := by omega
    simp [formatAndPrintLine, hfence, hbullet, h0, h1, hcond, hfields]
  · intro hlen hcond
    have h1 : ¬ (trimSpace line).length = 1 := by omega
    have h0 : 0 < (trimSpace line).length := by omega
    simp [formatAndPrintLine, hfence, hbullet, h0, h1, hcond]
  · intro hlen
    have h0 : 0 < (trimSpace line).length := by omega
    simp [formatAndPrintLine, hfence, hbullet, h0, hlen]
  · intro hlen
    have h0 : ¬ 0 < (trimSpace line).length := by omega
    simp [formatAndPrintLine, hfence, hbullet, h0]
  · simp [numberedCond, hvac]

/-- C9 counterexample: the line `"a1. b"` does not begin with a run of
digits followed by `". "` or `") "`, yet the formatter renders it as a
numbered item (`"a1."` as the number token). -/
theorem claim9_counterexample :
    formatAndPrintLine false "" "a1. b" = ((false, ""), .numberedItem "a1." "b") ∧
    specNumberedShape (trimSpace "a1. b") = false := by
  exact ⟨by decide, by decide⟩

/-- C9 witness: the genuinely numbered line `" 12. go now"` and the
one-character panic line `"x"`. -/
theorem claim9_witness :
    formatAndPrintLine false "" " 12. go now"
      = ((false, ""), .numberedItem "12." (trimSpace (joinSpace ["go", "now"]))) ∧
    formatAndPrintLine false "" "x" = ((false, ""), .panicked) := by
  constructor
  · exact (claim9_numbered_detection " 12. go now" "" (by decide) (by decide)).1
      "12." ["go", "now"] (by decide) (by decide) (by decide)
  · exact (claim9_numbered_detection "x" "" (by decide) (by decide)).2.2.1 (by decide)


/-! ### C1 — fragment aggregation -/

theorem toolCall_eq_of_fields {a b : ToolCall} (h1 : a.id = b.id) (h2 : a.type = b.type)
    (h3 : a.name = b.name) (h4 : a.arguments = b.arguments) : a = b := by
  cases a; cases b; simp_all

theorem length_growTo (tcs : List ToolCall) (n : Nat) :
    (growTo tcs n).length = max tcs.length n := by
  simp [growTo]
  omega

theorem getD_growTo (tcs : List ToolCall) (n i : Nat) :
    (growTo tcs n).getD i emptyToolCall = tcs.getD i emptyToolCall := by
  rw [List.getD_eq_getElem?_getD, List.getD_eq_getElem?_getD, growTo, List.getElem?_append]
  by_cases hi : i < tcs.length
  · rw [if_pos hi]
  · have hnone : tcs[i]? = none := List.getElem?_eq_none (by omega)
    rw [if_neg hi, List.getElem?_replicate, hnone]
    by_cases hlt : i - tcs.length < n - tcs.length
    · simp [hlt]
    · simp [hlt]

theorem length_mergeToolCallDelta (tcs : List ToolCall) (d : ToolCallDelta) :
    (mergeToolCallDelta tcs d).length
      = match d.index with | none => tcs.length | some i => max tcs.length (i + 1) := by
  cases hd : d.index with
  | none => simp [mergeToolCallDelta, hd]
  | some idx => simp [mergeToolCallDelta, hd, List.length_set, length_growTo]

theorem getD_mergeToolCallDelta_some (tcs : List ToolCall) (d : ToolCallDelta) (idx i : Nat)
    (hd : d.index = some idx) :
    (mergeToolCallDelta tcs d).getD i emptyToolCall
      = if idx = i then applyToolCallDelta (tcs.getD i emptyToolCall) d
        else tcs.getD i emptyToolCall := by
  have hlen : idx < (growTo tcs (idx + 1)).length := by
    rw [length_growTo]; omega
  simp only [mergeToolCallDelta, hd]
  rw [getD_growTo, List.getD_eq_getElem?_getD, List.getElem?_set]
  by_cases hi : idx = i
  · subst hi
    simp [hlen]
  · simp [hi, getD_growTo, ← List.getD_eq_getElem?_getD]

theorem getD_foldl_merge (ds : List ToolCallDelta) (tcs : List ToolCall) (i : Nat) :
    (ds.foldl mergeToolCallDelta tcs).getD i emptyToolCall
      = (deltasAt ds i).foldl applyToolCallDelta (tcs.getD i emptyToolCall) := by
  induction ds generalizing tcs with
  | nil => rfl
  | cons d t ih =>
    rw [List.foldl_cons, ih]
    cases hd : d.index with
    | none =>
      have hmerge : mergeToolCallDelta tcs d = tcs := by simp [mergeToolCallDelta, hd]
      have hfilter : deltasAt (d :: t) i = deltasAt t i := by
        simp [deltasAt, List.filter_cons, hd]
      rw [hmerge, hfilter]
    | some idx =>
      by_cases hi : idx = i
      · have hfilter : deltasAt (d :: t) i = d :: deltasAt t i := by
          simp [deltasAt, List.filter_cons, hd, hi]
        rw [hfilter, List.foldl_cons,
          getD_mergeToolCallDelta_some tcs d idx i hd, if_pos hi]
      · have hfilter : deltasAt (d :: t) i = deltasAt t i := by
          simp [deltasAt, List.filter_cons, hd, hi]
        rw [hfilter, getD_mergeToolCallDelta_some tcs d idx i hd, if_neg hi]

theorem length_foldl_merge (ds : List ToolCallDelta) (tcs : List ToolCall) :
    (ds.foldl mergeToolCallDelta tcs).length
      = ds.foldl (fun n d => match d.index with | none => n | some i => max n (i + 1))
          tcs.length := by
  induction ds generalizing tcs with
  | nil => rfl
  | cons d t ih =>
    rw [List.foldl_cons, List.foldl_cons, ih, length_mergeToolCallDelta]

theorem slotFold_id (l : List ToolCallDelta) (tc : ToolCall) :
    (l.foldl applyToolCallDelta tc).id = tc.id ++ joinAll (l.map (fun d => d.id)) := by
  induction l generalizing tc with
  | nil => simp [joinAll, String.append_empty]
  | cons d t ih =>
    rw [List.foldl_cons, ih, List.map_cons, joinAll, ← String.append_assoc]
    rfl

theorem slotFold_arguments (l : List ToolCallDelta) (tc : ToolCall) :
    (l.foldl applyToolCallDelta tc).arguments
      = tc.arguments ++ joinAll (l.map (fun d => d.arguments)) := by
  induction l generalizing tc with
  | nil => simp [joinAll, String.append_empty]
  | cons d t ih =>
    rw [List.foldl_cons, ih, List.map_cons, joinAll, ← String.append_assoc]
    rfl

theorem slotFold_type (l : List ToolCallDelta) (tc : ToolCall) :
    (l.foldl applyToolCallDelta tc).type = lastPieceD tc.type (l.map (fun d => d.type)) := by
  induction l generalizing tc with
  | nil => rfl
  | cons d t ih =>
    rw [List.foldl_cons, ih, List.map_cons]
    simp only [lastPieceD, List.foldl_cons]
    rfl

theorem slotFold_name (l : List ToolCallDelta) (tc : ToolCall) :
    (l.foldl applyToolCallDelta tc).name
      = if tc.name = "" then firstNonEmptyName (l.map (fun d => d.name)) else tc.name := by
  induction l generalizing tc with
  | nil =>
    by_cases h0 : tc.name = "" <;> simp [firstNonEmptyName, h0]
  | cons d t ih =>
    rw [List.foldl_cons, ih, List.map_cons]
    by_cases h0 : tc.name = "" <;> by_cases hd : d.name = "" <;>
      simp [applyToolCallDelta, firstNonEmptyName, h0, hd]

theorem aggregate_getD (ds : List ToolCallDelta) (i : Nat) :
    (aggregateToolCalls ds).getD i emptyToolCall
      = { id := joinAll ((deltasAt ds i).map (fun d => d.id)),
          type := lastPieceD "" ((deltasAt ds i).map (fun d => d.type)),
          name := firstNonEmptyName ((deltasAt ds i).map (fun d => d.name)),
          arguments := joinAll ((deltasAt ds i).map (fun d => d.arguments)) } := by
  have h : (aggregateToolCalls ds).getD i emptyToolCall
      = (deltasAt ds i).foldl applyToolCallDelta emptyToolCall := by
    rw [aggregateToolCalls, getD_foldl_merge]
    rfl
  rw [h]
  refine toolCall_eq_of_fields ?_ ?_ ?_ ?_
  · rw [slotFold_id]
    exact String.empty_append _
  · rw [slotFold_type]
    rfl
  · rw [slotFold_name, if_pos (show emptyToolCall.name = "" from rfl)]
  · rw [slotFold_arguments]
    exact String.empty_append _

theorem aggregate_length (ds : List ToolCallDelta) :
    (aggregateToolCalls ds).length = aggLen ds :=
  length_foldl_merge ds []

theorem aggregate_eq_of_getD {l1 l2 : List ToolCall} (hlen : l1.length = l2.length)
    (h : ∀ i, l1.getD i emptyToolCall = l2.getD i emptyToolCall) : l1 = l2 := by
  apply List.ext_getElem hlen
  intro i h1 h2
  have := h i
  rwa [List.getD_eq_getElem l1 emptyToolCall h1, List.getD_eq_getElem l2 emptyToolCall h2]
    at this

/-- C1 (amended): the aggregator grows the collection to one past the
highest index seen, and the record at each index is exactly: id = the
concatenation of that index's id pieces in arrival order, arguments =
the concatenation of its argument pieces, name = its first non-empty
name piece, type = its last type piece.  Consequently two fragment
sequences produce identical merged collections whenever they agree,
per index, on those four derived values (and on the highest index).
Agreement of the concatenations alone does not suffice: the name field
is set-once rather than concatenated, so splitting a name across
fragments changes the result (`claim1_counterexample`). -/
theorem claim1_aggregation_invariance :
    (∀ ds i, (aggregateToolCalls ds).getD i emptyToolCall
      = { id := joinAll ((deltasAt ds i).map (fun d => d.id)),
          type := lastPieceD "" ((deltasAt ds i).map (fun d => d.type)),
          name := firstNonEmptyName ((deltasAt ds i).map (fun d => d.name)),
          arguments := joinAll ((deltasAt ds i).map (fun d => d.arguments)) }) ∧
    (∀ ds, (aggregateToolCalls ds).length = aggLen ds) ∧
    (∀ ds1 ds2, aggLen ds1 = aggLen ds2 →
      (∀ i, joinAll ((deltasAt ds1 i).map (fun d => d.id))
        = joinAll ((deltasAt ds2 i).map (fun d => d.id))) →
      (∀ i, firstNonEmptyName ((deltasAt ds1 i).map (fun d => d.name))
        = firstNonEmptyName ((deltasAt ds2 i).map (fun d => d.name))) →
      (∀ i, joinAll ((deltasAt ds1 i).map (fun d => d.arguments))
        = joinAll ((deltasAt ds2 i).map (fun d => d.arguments))) →
      (∀ i, lastPieceD "" ((deltasAt ds1 i).map (fun d => d.type))
        = lastPieceD "" ((deltasAt ds2 i).map (fun d => d.type))) →
      aggregateToolCalls ds1 = aggregateToolCalls ds2) := by
  refine ⟨aggregate_getD, aggregate_length, ?_⟩
  intro ds1 ds2 hlen hid hname harg htype
  apply aggregate_eq_of_getD
  · rw [aggregate_length, aggregate_length, hlen]
  · intro i
    rw [aggregate_getD, aggregate_getD, hid i, hname i, harg i, htype i]

/-- C1 counterexample: two fragmentations of the same per-index fields
— equal id concatenation, equal name concatenation, equal argument
concatenation, equal types, same single index — yield different merged
collections, because the second fragmentation splits the name `"ab"`
into pieces `"a"`, `"b"` and only the first non-empty piece survives.
The merged result is not invariant under fragmentation of the name
field, refuting the claim as stated. -/
theorem claim1_counterexample :
    joinAll ((deltasAt [c1FragWhole] 0).map (fun d => d.name))
      = joinAll ((deltasAt c1FragSplit 0).map (fun d => d.name)) ∧
    joinAll ((deltasAt [c1FragWhole] 0).map (fun d => d.id))
      = joinAll ((deltasAt c1FragSplit 0).map (fun d => d.id)) ∧
    joinAll ((deltasAt [c1FragWhole] 0).map (fun d => d.arguments))
      = joinAll ((deltasAt c1FragSplit 0).map (fun d => d.arguments)) ∧
    lastPieceD "" ((deltasAt [c1FragWhole] 0).map (fun d => d.type))
      = lastPieceD "" ((deltasAt c1FragSplit 0).map (fun d => d.type)) ∧
    aggLen [c1FragWhole] = aggLen c1FragSplit ∧
    ¬ aggregateToolCalls [c1FragWhole] = aggregateToolCalls c1FragSplit := by
  refine ⟨by decide, by decide, by decide, by decide, by decide, by decide⟩

/-- C1 witness: two fragmentations agreeing on the derived per-index
values merge identically. -/
theorem claim1_witness :
    aggregateToolCalls [c1WholeW] = aggregateToolCalls c1SplitW := by
  refine claim1_aggregation_invariance.2.2 [c1WholeW] c1SplitW
    (by decide) ?_ ?_ ?_ ?_ <;>
    · intro i
      by_cases hi : i = 0
      · subst hi
        decide
      · simp [c1WholeW, c1SplitW, deltasAt, List.filter_cons, Option.some.injEq, hi,
          Ne.symm hi]


/-! ### C7, C8 — directory ingestion -/

theorem walkCallback_file_added (st : ScanState) (path relp : String) (nm : String)
    (a : FileAttr) :
    (walkCallback st path relp (.fileE nm a)).1.added = st.added ∨
    (walkCallback st path relp (.fileE nm a)).1.added = st.added ++ [(relp, a.content)] := by
  simp only [walkCallback]
  repeat' split
  all_goals first
    | exact Or.inl rfl
    | exact Or.inr rfl

theorem walkCallback_dir_added (st : ScanState) (path relp : String) (nm : String)
    (rerr : Bool) (children : List FsEntry) :
    (walkCallback st path relp (.dirE nm rerr children)).1.added = st.added := by
  simp only [walkCallback]
  repeat' split
  all_goals rfl

theorem walkCallback_skipped (st : ScanState) (path relp : String) (e : FsEntry) :
    ∃ u, (walkCallback st path relp e).1.skipped = st.skipped ++ u := by
  cases e
  all_goals simp only [walkCallback]
  all_goals repeat' split
  all_goals first
    | exact ⟨[], (List.append_nil _).symm⟩
    | exact ⟨_, rfl⟩

mutual

theorem walkEntry_spec (st : ScanState) (path relp : String) (e : FsEntry) :
    (∃ t, (walkEntry st path relp e).1.added = st.added ++ t ∧ t.Sublist (relFilesE relp e)) ∧
    (∃ u, (walkEntry st path relp e).1.skipped = st.skipped ++ u) := by
  cases e with
  | fileE nm a =>
    constructor
    · rcases walkCallback_file_added st path relp nm a with hc | hc
      · refine ⟨[], ?_, List.nil_sublist _⟩
        show (walkCallback st path relp (.fileE nm a)).1.added = st.added ++ []
        rw [hc, List.append_nil]
      · refine ⟨[(relp, a.content)], ?_, ?_⟩
        · exact hc
        · have hrel : relFilesE relp (.fileE nm a) = [(relp, a.content)] := by
            rw [relFilesE]
          rw [hrel]
    · obtain ⟨u0, hu0⟩ := walkCallback_skipped st path relp (.fileE nm a)
      exact ⟨u0, hu0⟩
  | dirE nm rerr children =>
    obtain ⟨u0, hu0⟩ := walkCallback_skipped st path relp (.dirE nm rerr children)
    have hadd := walkCallback_dir_added st path relp nm rerr children
    by_cases hb : (walkCallback st path relp (.dirE nm rerr children)).2 = true
    · constructor
      · refine ⟨[], ?_, List.nil_sublist _⟩
        simp only [walkEntry]
        rw [if_pos hb]
        show (walkCallback st path relp (.dirE nm rerr children)).1.added = st.added ++ []
        rw [hadd, List.append_nil]
      · refine ⟨u0, ?_⟩
        simp only [walkEntry]
        rw [if_pos hb]
        exact hu0
    · by_cases hr : rerr = true
      · constructor
        · refine ⟨[], ?_, List.nil_sublist _⟩
          simp only [walkEntry]
          rw [if_neg hb, if_pos hr]
          show (walkCallback st path relp (.dirE nm rerr children)).1.added = st.added ++ []
          rw [hadd, List.append_nil]
        · refine ⟨u0 ++ [path ++ " (walk error: readdir failure)"], ?_⟩
          simp only [walkEntry]
          rw [if_neg hb, if_pos hr]
          show (walkCallback st path relp (.dirE nm rerr children)).1.skipped
              ++ [path ++ " (walk error: readdir failure)"]
            = st.skipped ++ (u0 ++ [path ++ " (walk error: readdir failure)"])
          rw [hu0, List.append_assoc]
      · obtain ⟨⟨t, ht, hts⟩, u1, hu1⟩ :=
          walkChildren_spec (walkCallback st path relp (.dirE nm rerr children)).1 path relp
            children
        constructor
        · refine ⟨t, ?_, ?_⟩
          · simp only [walkEntry]
            rw [if_neg hb, if_neg hr]
            show (walkChildren (walkCallback st path relp (.dirE nm rerr children)).1 path relp
                children).added = st.added ++ t
            rw [ht, hadd]
          · have hrel : relFilesE relp (.dirE nm rerr children) = relFilesL relp children := by
              rw [relFilesE]
            rw [hrel]
            exact hts
        · refine ⟨u0 ++ u1, ?_⟩
          simp only [walkEntry]
          rw [if_neg hb, if_neg hr]
          show (walkChildren (walkCallback st path relp (.dirE nm rerr children)).1 path relp
              children).skipped = st.skipped ++ (u0 ++ u1)
          rw [hu1, hu0, List.append_assoc]

theorem walkChildren_spec (st : ScanState) (path relp : String) (l : List FsEntry) :
    (∃ t, (walkChildren st path relp l).added = st.added ++ t ∧ t.Sublist (relFilesL relp l)) ∧
    (∃ u, (walkChildren st path relp l).skipped = st.skipped ++ u) := by
  cases l with
  | nil =>
    constructor
    · refine ⟨[], ?_, List.nil_sublist _⟩
      show st.added = st.added ++ []
      rw [List.append_nil]
    · refine ⟨[], ?_⟩
      show st.skipped = st.skipped ++ []
      rw [List.append_nil]
  | cons c cs =>
    obtain ⟨⟨t1, ht1, ht1s⟩, u1, hu1⟩ :=
      walkEntry_spec st (path ++ "/" ++ c.entryName) (joinRel relp c.entryName) c
    have hrel : relFilesL relp (c :: cs)
        = relFilesE (joinRel relp c.entryName) c ++ relFilesL relp cs := by
      rw [relFilesL]
    by_cases hb : (walkEntry st (path ++ "/" ++ c.entryName) (joinRel relp c.entryName) c).2
      = true
    · constructor
      · refine ⟨t1, ?_, ?_⟩
        · simp only [walkChildren]
          rw [if_pos hb]
          exact ht1
        · rw [hrel]
          exact ht1s.trans (List.sublist_append_left _ _)
      · refine ⟨u1, ?_⟩
        simp only [walkChildren]
        rw [if_pos hb]
        exact hu1
    · obtain ⟨⟨t2, ht2, ht2s⟩, u2, hu2⟩ :=
        walkChildren_spec
          (walkEntry st (path ++ "/" ++ c.entryName) (joinRel relp c.entryName) c).1 path relp
          cs
      constructor
      · refine ⟨t1 ++ t2, ?_, ?_⟩
        · simp only [walkChildren]
          rw [if_neg hb, ht2, ht1, List.append_assoc]
        · rw [hrel]
          exact List.Sublist.append ht1s ht2s
      · refine ⟨u1 ++ u2, ?_⟩
        simp only [walkChildren]
        rw [if_neg hb, hu2, hu1, List.append_assoc]

end

/-- C7 (amended): a stat failure, a read failure, and a directory
read-dir failure on an otherwise-admitted entry each produce a skip
record carrying the path and a reason and let the scan continue (the
walk signals `nil`, not an abort); a failure to stat the root itself
likewise becomes a skip record with the call still succeeding; the
ingest call returns a hard error exactly when `normalizePath` rejects
the root path.  The original claim's "only a failure to open the root
causes a hard error" is refuted by `claim7_counterexample`: a root
failure is converted to a skip record and the call returns
successfully. -/
theorem claim7_skip_policy :
    (∀ st path relp nm a, st.filesProcessed < maxTotalFiles →
      goStartsWith nm "." = false → nm ∉ excludedFiles →
      lowerStr (fileExt nm) ∉ excludedExtensions → a.statErr = true →
      walkEntry st path relp (.fileE nm a)
        = (st.skip (path ++ " (stat error: stat failure)"), false)) ∧
    (∀ st path relp nm a, st.filesProcessed < maxTotalFiles →
      goStartsWith nm "." = false → nm ∉ excludedFiles →
      lowerStr (fileExt nm) ∉ excludedExtensions → a.statErr = false →
      ¬ a.size > maxFileSize → a.openErr = false → hasNulEarly a.content = false →
      a.readErr = true →
      walkEntry st path relp (.fileE nm a)
        = (st.skip (path ++ " (read error: read failure)"), false)) ∧
    (∀ st path relp nm children, st.filesProcessed < maxTotalFiles →
      ¬ (goStartsWith nm "." = true ∧ ¬ nm = "." ∧ ¬ nm = "..") → nm ∉ excludedFiles →
      walkEntry st path relp (.dirE nm true children)
        = (st.skip (path ++ " (walk error: readdir failure)"), false)) ∧
    (∀ p root, ¬ p = "error" →
      ∃ res, addDirectoryToConversationHelper p root = .ok res) ∧
    (∀ root, addDirectoryToConversationHelper "error" root
      = .error ("addDirectoryToConversationHelper: " ++ "test error")) := by
  refine ⟨?_, ?_, ?_, ?_, fun root => rfl⟩
  · intro st path relp nm a hq hh hx he hs
    have hq' : ¬ st.filesProcessed ≥ maxTotalFiles := by omega
    simp [walkEntry, walkCallback, hq', hh, hx, he, hs]
  · intro st path relp nm a hq hh hx he hs hsz ho hnul hr
    have hq' : ¬ st.filesProcessed ≥ maxTotalFiles := by omega
    simp [walkEntry, walkCallback, hq', hh, hx, he, hs, hsz, ho, hnul, hr]
  · intro st path relp nm children hq hh hx
    have hq' : ¬ st.filesProcessed ≥ maxTotalFiles := by omega
    simp [walkEntry, walkCallback, hq', hh, hx]
  · intro p root hp
    have hn : normalizePath p = .ok p := by simp [normalizePath, hp]
    cases root with
    | none =>
      refine ⟨([], [p ++ " (walk error: stat root failure)"]), ?_⟩
      simp [addDirectoryToConversationHelper, hn]
    | some e =>
      refine ⟨((walkEntry { added := [], skipped := [], filesProcessed := 0 } p "." e).1.added,
        (walkEntry { added := [], skipped := [], filesProcessed := 0 } p "." e).1.skipped), ?_⟩
      simp [addDirectoryToConversationHelper, hn]

/-- C7 counterexample: a root path the OS cannot stat does not make the
ingest call return a hard error — the failure becomes a skip record and
the call returns success with an empty content map. -/
theorem claim7_counterexample :
    addDirectoryToConversationHelper "r" none
      = .ok ([], ["r (walk error: stat root failure)"]) ∧
    ∀ e, ¬ addDirectoryToConversationHelper "r" none = .error e := by
  constructor
  · rfl
  · intro e h
    cases h

/-- C7 witness: the stat-failure and read-failure skips on concrete
files, and success of a scan over a present root. -/
theorem claim7_witness :
    walkEntry { added := [], skipped := [], filesProcessed := 0 } "r/bad" "bad"
        (.fileE "bad" { size := 1, content := "x", statErr := true })
      = (({ added := [], skipped := [], filesProcessed := 0 } : ScanState).skip
          ("r/bad" ++ " (stat error: stat failure)"), false) ∧
    walkEntry { added := [], skipped := [], filesProcessed := 0 } "r/ro" "ro"
        (.fileE "ro" { size := 1, content := "x", readErr := true })
      = (({ added := [], skipped := [], filesProcessed := 0 } : ScanState).skip
          ("r/ro" ++ " (read error: read failure)"), false) ∧
    ∃ res, addDirectoryToConversationHelper "r"
        (some (.fileE "r" { size := 1, content := "x" })) = .ok res := by
  refine ⟨?_, ?_, ?_⟩
  · exact claim7_skip_policy.1 { added := [], skipped := [], filesProcessed := 0 } "r/bad"
      "bad" "bad" { size := 1, content := "x", statErr := true }
      (by decide) (by decide) (by decide) (by decide) (by decide)
  · exact claim7_skip_policy.2.1 { added := [], skipped := [], filesProcessed := 0 } "r/ro"
      "ro" "ro" { size := 1, content := "x", readErr := true }
      (by decide) (by decide) (by decide) (by decide) (by decide) (by decide) (by decide)
      (by decide) (by decide)
  · exact claim7_skip_policy.2.2.2.1 "r" (some (.fileE "r" { size := 1, content := "x" }))
      (by decide)

/-- C8: a successful scan's content map is a sublist of the
depth-first file listing of the tree — each entry pairs an admitted
file's root-relative path with that file's content, and the entries
appear in traversal order; when the tree's relative file paths are
distinct (as they are on a real filesystem) the map keys are unique.
The skip sequence is accumulated by appending one record per skip, so
it is ordered by occurrence by construction
(`walkEntry_spec`/`walkChildren_spec`). -/
theorem claim8_scan_result (p : String) (root : FsEntry)
    (added : List (String × String)) (skipped : List String)
    (hnd : ((relFilesE "." root).map Prod.fst).Nodup)
    (h : addDirectoryToConversationHelper p (some root) = .ok (added, skipped)) :
    added.Sublist (relFilesE "." root) ∧
    (added.map Prod.fst).Nodup ∧
    (∀ kv, kv ∈ added → kv ∈ relFilesE "." root) := by
  by_cases hp : p = "error"
  · rw [hp] at h
    cases h
  · have heq : addDirectoryToConversationHelper p (some root)
        = .ok ((walkEntry { added := [], skipped := [], filesProcessed := 0 } p "." root).1.added,
               (walkEntry { added := [], skipped := [], filesProcessed := 0 } p "." root).1.skipped) := by
      simp [addDirectoryToConversationHelper, normalizePath, hp]
    rw [heq] at h
    obtain ⟨h1, h2⟩ := Prod.mk.injEq .. ▸ Except.ok.inj h
    obtain ⟨⟨t, ht, hts⟩, -⟩ :=
      walkEntry_spec { added := [], skipped := [], filesProcessed := 0 } p "." root
    have hadded : added = t := by
      rw [← h1, ht]
      rfl
    subst hadded
    refine ⟨hts, ?_, ?_⟩
    · exact ((hts.map Prod.fst).nodup hnd)
    · intro kv hkv
      exact hts.subset hkv

/-- C8 witness: a concrete scan whose content map lists the two
admitted files in traversal order with unique keys. -/
theorem claim8_witness :
    ([("a.txt", "abc"), ("sub/b.txt", "y")] : List (String × String)).Sublist
      (relFilesE "." (.dirE "r" false
        [.fileE "a.txt" { size := 3, content := "abc" },
         .fileE ".h" { size := 1, content := "x" },
         .dirE "sub" false [.fileE "b.txt" { size := 1, content := "y" }]])) ∧
    (([("a.txt", "abc"), ("sub/b.txt", "y")] : List (String × String)).map Prod.fst).Nodup ∧
    (∀ kv, kv ∈ ([("a.txt", "abc"), ("sub/b.txt", "y")] : List (String × String)) →
      kv ∈ relFilesE "." (.dirE "r" false
        [.fileE "a.txt" { size := 3, content := "abc" },
         .fileE ".h" { size := 1, content := "x" },
         .dirE "sub" false [.fileE "b.txt" { size := 1, content := "y" }]])) :=
  claim8_scan_result "r"
    (.dirE "r" false
      [.fileE "a.txt" { size := 3, content := "abc" },
       .fileE ".h" { size := 1, content := "x" },
       .dirE "sub" false [.fileE "b.txt" { size := 1, content := "y" }]])
    [("a.txt", "abc"), ("sub/b.txt", "y")] ["r/.h (hidden file)"]
    (by decide) (by decide)

end Neo
